import Mathlib

/-!
Verification of the WealthAudit financial engine.

This file gives a shallow embedding, in Lean 4, of the calculation core of the
WealthAudit repository:

* `src/use_cases/calculators/balance_sheet.py` (`BalanceSheetCalculator.calculate`),
* `src/use_cases/calculators/metrics.py` (`MetricsCalculator.calculate`),
* `scripts/forecast.py` (`calculate_cv`, `forecast_minna_income`,
  `forecast_expense`'s classification, `calculate_bs_derived`,
  `calculate_metrics_vectorized`'s ratio columns, and the asset roll-forward
  loop body of `main`).

Python floats are embedded as exact rationals (`ℚ`), Python `int` as `ℤ`, and
Python's `int(...)` conversion (truncation toward zero) as `pytrunc`.  Python
dictionaries built by comprehension (last binding wins) are embedded as
last-match lookup over the originating list.  Quantities the code computes with
`sqrt` are embedded over `ℝ` via `Real.sqrt`.
-/

namespace WealthAudit

/-- Embedding of `AccountType` from `src/constants.py`. -/
inductive AccountType where
  | bank | securities | crypto | pension | fintech
deriving DecidableEq, Repr

/-- Embedding of `Currency` from `src/constants.py`. -/
inductive Currency where
  | JPY | USD | EUR | MULTI
deriving DecidableEq, Repr

/-- Embedding of the `Account` master row of `src/domain/entities/models.py`. -/
structure Account where
  id : String
  name : String
  type : AccountType
  currency : Currency
  risk : Int
deriving DecidableEq, Repr

/-- Embedding of the `Asset` row of `src/domain/entities/models.py` (balance in
native currency). -/
structure Asset where
  month : String
  account_id : String
  asset_class : String
  balance : ℚ
deriving DecidableEq, Repr

/-- Embedding of the `Market` row of `src/domain/entities/models.py`. -/
structure Market where
  month : String
  usd_jpy : ℚ
  eur_jpy : ℚ
  sp500 : ℚ
deriving DecidableEq, Repr

/-- Embedding of `CashFlowStatement` of `src/use_cases/dtos/output.py` (integer
fields). -/
structure CashFlowStatement where
  month : String
  after_tax_income : Int
  expenditure : Int
  net_savings : Int
deriving DecidableEq, Repr

/-- Embedding of `BalanceSheet` of `src/use_cases/dtos/output.py` (integer
fields). -/
structure BalanceSheet where
  month : String
  liquid_assets : Int
  risk_assets : Int
  pension_assets : Int
  total_financial_assets : Int
  investment_gain_loss : Int
deriving DecidableEq, Repr

/-- Python `int(x)` on a float/rational: truncation toward zero. -/
def pytrunc (q : ℚ) : Int := q.num.tdiv q.den

/-- A rational that is (exactly) an integer. -/
def IsIntQ (q : ℚ) : Prop := ∃ n : Int, q = (n : ℚ)

/-- Lookup in `{acc.id: acc for acc in accounts}` via `.get k` — the last binding
for a duplicated id wins, missing ids give `None`. -/
def account_map (accounts : List Account) (k : String) : Option Account :=
  (accounts.filter (fun a => a.id == k)).getLast?

/-- Lookup in `{m.month: m for m in markets}` via `.get k`. -/
def market_map (markets : List Market) (k : String) : Option Market :=
  (markets.filter (fun m => m.month == k)).getLast?

/-- Lookup in `{cf.month: cf for cf in cashflows}` via `.get k`. -/
def cf_map (cashflows : List CashFlowStatement) (k : String) : Option CashFlowStatement :=
  (cashflows.filter (fun cf => cf.month == k)).getLast?

/-- Lookup `assets_by_month[month]`: the asset rows of one month, in input
order. -/
def assets_of_month (assets : List Asset) (m : String) : List Asset :=
  assets.filter (fun a => a.month == m)

/-- Embedding of `sorted(list(set(assets_by_month.keys()) |
set(market_map.keys())))`. -/
def sorted_months (assets : List Asset) (markets : List Market) : List String :=
  List.insertionSort (· ≤ ·)
    ((assets.map (·.month) ++ markets.map (·.month)).dedup)

/-- Exchange-rate selection of `balance_sheet.py` lines 63–68: USD and EUR
balances use the month's market rate, everything else (and a missing market
row) uses rate 1. -/
def convRate (acc : Account) (market : Option Market) : ℚ :=
  match acc.currency with
  | Currency.USD => match market with | some mk => mk.usd_jpy | none => 1
  | Currency.EUR => match market with | some mk => mk.eur_jpy | none => 1
  | _ => 1

/-- One step of the per-asset accumulation loop of `balance_sheet.py`
lines 58–79: resolve the account (skip the row if unknown), convert the
balance, and add it to the pension / risk / liquid bucket. -/
def bucketStep (amap : String → Option Account) (market : Option Market)
    (st : ℚ × ℚ × ℚ) (a : Asset) : ℚ × ℚ × ℚ :=
  match amap a.account_id with
  | none => st
  | some acc =>
    let jpy := a.balance * convRate acc market
    if acc.type = AccountType.pension then (st.1, st.2.1, st.2.2 + jpy)
    else if acc.risk = 1 then (st.1, st.2.1 + jpy, st.2.2)
    else (st.1 + jpy, st.2.1, st.2.2)

/-- The bucket totals `(liquid_total, risk_total, pension_total)` of one month
(the accumulation order is immaterial over `ℚ`). -/
def bucketTotals (amap : String → Option Account) (market : Option Market)
    (current : List Asset) : ℚ × ℚ × ℚ :=
  current.foldl (bucketStep amap market) (0, 0, 0)

/-- The pre-truncation content of one output row of
`BalanceSheetCalculator.calculate`: the exact rational values the Python loop
holds in its local floats before each is passed through `int(...)`. -/
structure BalanceSheetQ where
  month : String
  liquidQ : ℚ
  riskQ : ℚ
  pensionQ : ℚ
  totalQ : ℚ
  gainQ : ℚ
deriving DecidableEq, Repr

/-- Truncate each monetary field with `int(...)` as the Python constructor
call at `balance_sheet.py` lines 108–117 does. -/
def truncRow (q : BalanceSheetQ) : BalanceSheet :=
  { month := q.month
    liquid_assets := pytrunc q.liquidQ
    risk_assets := pytrunc q.riskQ
    pension_assets := pytrunc q.pensionQ
    total_financial_assets := pytrunc q.totalQ
    investment_gain_loss := pytrunc q.gainQ }

/-- Embedding of `net_savings = cf.net_savings if cf else 0.0` (lines 86–87). -/
def nsOf (cfmap : String → Option CashFlowStatement) (m : String) : Int :=
  match cfmap m with
  | some cf => cf.net_savings
  | none => 0

/-- The month loop of `BalanceSheetCalculator.calculate` (lines 40–119), kept
in exact rationals.  The state is the running `prev_total_assets` (updated to
the *untruncated* total of each emitted month) and the `not bs_list` test
(true until the first row is emitted).  Months whose asset list is empty —
months present only through market data — are skipped. -/
def bsLoopQ (amap : String → Option Account) (mmap : String → Option Market)
    (cfmap : String → Option CashFlowStatement) (assets : List Asset) :
    List String → ℚ → Bool → List BalanceSheetQ
  | [], _, _ => []
  | m :: rest, prevTotal, isFirst =>
    let current := assets_of_month assets m
    if current.isEmpty then
      bsLoopQ amap mmap cfmap assets rest prevTotal isFirst
    else
      let market := mmap m
      let b := bucketTotals amap market current
      let total := b.1 + b.2.1 + b.2.2
      let gain : ℚ := if isFirst then 0 else total - (prevTotal + (nsOf cfmap m : ℚ))
      { month := m, liquidQ := b.1, riskQ := b.2.1, pensionQ := b.2.2,
        totalQ := total, gainQ := gain }
        :: bsLoopQ amap mmap cfmap assets rest total false

/-- Embedding of `BalanceSheetCalculator.calculate` of
`src/use_cases/calculators/balance_sheet.py`: build the lookup maps, walk the
sorted months, and emit each row with every field truncated by `int(...)`. -/
def BalanceSheetCalculator_calculate (assets : List Asset) (markets : List Market)
    (accounts : List Account) (cashflows : List CashFlowStatement) : List BalanceSheet :=
  (bsLoopQ (account_map accounts) (market_map markets) (cf_map cashflows) assets
    (sorted_months assets markets) 0 true).map truncRow

/-! ### `MetricsCalculator.calculate` (`src/use_cases/calculators/metrics.py`)

The trailing-window FI ratios (`fi_ratio_12m`, `fi_ratio_48m`,
`fi_ratio_next_12m`, lines 100–119) are pure calendar-window sums that no
claim at hand concerns; the embedding carries the remaining per-month fields
and, crucially, the `prev_bs` / `prev_market` carrying discipline of the loop
(lines 52–140). -/

/-- The per-month fields of `FinancialMetrics` that the embedded loop emits. -/
structure FinancialMetrics where
  month : String
  savings_rate : ℚ
  risk_asset_ratio : ℚ
  monthly_return : ℚ
  monthly_alpha : ℚ
  benchmark_return : ℚ
deriving DecidableEq, Repr

/-- The body of the metrics loop for one month that has both a cash-flow and a
balance-sheet entry (`metrics.py` lines 64–133): savings rate, risk-asset
ratio, monthly return against the carried previous balance sheet, and
benchmark return / alpha against the carried previous market row. -/
def computeFM (m : String) (cf : CashFlowStatement) (bs : BalanceSheet)
    (market : Option Market) (prevBs : Option BalanceSheet) (prevMkt : Option Market) :
    FinancialMetrics :=
  let savings_rate : ℚ :=
    if cf.after_tax_income ≠ 0 then (cf.net_savings : ℚ) / (cf.after_tax_income : ℚ) else 0
  let equity_ratio : ℚ :=
    if bs.total_financial_assets ≠ 0 then
      (bs.risk_assets : ℚ) / (bs.total_financial_assets : ℚ)
    else 0
  let monthly_return : ℚ :=
    match prevBs with
    | some pb =>
      if pb.risk_assets > 0 then (bs.investment_gain_loss : ℚ) / (pb.risk_assets : ℚ) else 0
    | none => 0
  let bench_alpha : ℚ × ℚ :=
    match market, prevMkt with
    | some mk, some pmk =>
      let current_sp500_jpy := mk.sp500 * mk.usd_jpy
      let prev_sp500_jpy := pmk.sp500 * pmk.usd_jpy
      if prev_sp500_jpy > 0 then
        (current_sp500_jpy / prev_sp500_jpy - 1,
         monthly_return - (current_sp500_jpy / prev_sp500_jpy - 1))
      else (0, 0)
    | _, _ => (0, 0)
  { month := m, savings_rate := savings_rate, risk_asset_ratio := equity_ratio,
    monthly_return := monthly_return, monthly_alpha := bench_alpha.2,
    benchmark_return := bench_alpha.1 }

/-- The month loop of `MetricsCalculator.calculate` (lines 55–140).  A month
missing either its cash-flow or its balance-sheet entry is skipped outright
(`continue`), leaving both carried snapshots untouched; on an emitted month
`prev_bs` is set to the month's balance sheet and `prev_market` to the month's
market row when one exists (lines 135–140). -/
def metricsLoop (cfmap : String → Option CashFlowStatement)
    (bsmap : String → Option BalanceSheet) (mmap : String → Option Market) :
    List String → Option BalanceSheet → Option Market → List FinancialMetrics
  | [], _, _ => []
  | m :: rest, prevBs, prevMkt =>
    match cfmap m, bsmap m with
    | some cf, some bs =>
      computeFM m cf bs (mmap m) prevBs prevMkt
        :: metricsLoop cfmap bsmap mmap rest (some bs)
            (if (mmap m).isSome then mmap m else prevMkt)
    | _, _ => metricsLoop cfmap bsmap mmap rest prevBs prevMkt

/-- Lookup in `{bs.month: bs for bs in bs_statements}` via `.get k`. -/
def bs_map (bss : List BalanceSheet) (k : String) : Option BalanceSheet :=
  (bss.filter (fun bs => bs.month == k)).getLast?

/-- Embedding of `sorted(list(set(cf) | set(bs) | set(markets)))` of
`metrics.py` line 18. -/
def metrics_months (cfs : List CashFlowStatement) (bss : List BalanceSheet)
    (markets : List Market) : List String :=
  List.insertionSort (· ≤ ·)
    ((cfs.map (·.month) ++ bss.map (·.month) ++ markets.map (·.month)).dedup)

/-- Embedding of `MetricsCalculator.calculate` (per-month fields; both carried snapshots
start as `None`, line 52–53). -/
def MetricsCalculator_calculate (cfs : List CashFlowStatement)
    (bss : List BalanceSheet) (markets : List Market) : List FinancialMetrics :=
  metricsLoop (cf_map cfs) (bs_map bss) (market_map markets)
    (metrics_months cfs bss markets) none none

/-! ### The combined history+forecast series (`scripts/forecast.py`)

A row of the combined dataframe, restricted to the columns the derived
balance-sheet and ratio computations read and write.  The `monthly_return`,
`monthly_alpha` and `benchmark_return` columns of
`calculate_metrics_vectorized` go through `np.log1p`/`np.expm1` and are not
part of any claim, so they are not carried here. -/
structure CombinedRow where
  month : String
  after_tax_income : ℚ
  expenditure : ℚ
  net_savings : ℚ
  liquid_assets : ℚ
  risk_assets : ℚ
  pension_assets : ℚ
  total_financial_assets : ℚ
  investment_gain_loss : ℚ
  savings_rate : ℚ
  risk_asset_ratio : ℚ
deriving DecidableEq, Repr

/-- The recomputed total of one combined row (`forecast.py` lines 286–290). -/
def dfTotal (r : CombinedRow) : ℚ :=
  r.liquid_assets + r.risk_assets + r.pension_assets

/-- The `investment_gain_loss` column below the first row:
`total(t) - total(t-1) - net_savings(t)` against the previous row's
recomputed total (`forecast.py` lines 292–299). -/
def gainsAux (prev : ℚ) : List CombinedRow → List ℚ
  | [] => []
  | r :: rest => (dfTotal r - prev - r.net_savings) :: gainsAux (dfTotal r) rest

/-- The whole `investment_gain_loss` column: the first row's `shift(1)` value
is `NaN`, so its gain is filled with `0` (lines 295–302). -/
def bsGains : List CombinedRow → List ℚ
  | [] => []
  | r :: rest => 0 :: gainsAux (dfTotal r) rest

/-- Embedding of `calculate_bs_derived` (`forecast.py` lines 280–304): overwrite
`total_financial_assets` with `liquid + risk + pension` and
`investment_gain_loss` with the shifted difference minus net savings
(first row 0). -/
def calculate_bs_derived (df : List CombinedRow) : List CombinedRow :=
  (df.zip (bsGains df)).map fun p =>
    { p.1 with total_financial_assets := dfTotal p.1, investment_gain_loss := p.2 }

/-- Embedding of `rolling(window=12, min_periods=1).sum()` at row `i`: the sum of rows
`max(0, i-11) … i`. -/
def ttmSum (xs : List ℚ) (i : ℕ) : ℚ :=
  ((xs.take (i + 1)).drop (i + 1 - 12)).sum

/-- The `savings_rate` and `risk_asset_ratio` columns of
`calculate_metrics_vectorized` (`forecast.py` lines 307–325): the savings
rate is trailing-12-month net savings over trailing-12-month income (0 when
the income sum is 0; lines 312–318), and the risk-asset ratio is
`(risk_assets + pension_assets) / total_financial_assets` per row (0 when the
total is 0; lines 320–325).  The later columns of the Python function
(log-space rolling returns, alpha, FI ratios) are outside the claims. -/
def calculate_metrics_vectorized (df : List CombinedRow) : List CombinedRow :=
  let inc := df.map (·.after_tax_income)
  let sav := df.map (·.net_savings)
  df.enum.map fun p =>
    let ttm_income := ttmSum inc p.1
    let ttm_savings := ttmSum sav p.1
    let sr := if ttm_income ≠ 0 then ttm_savings / ttm_income else 0
    let rr :=
      if p.2.total_financial_assets ≠ 0 then
        (p.2.risk_assets + p.2.pension_assets) / p.2.total_financial_assets
      else 0
    { p.2 with savings_rate := sr, risk_asset_ratio := rr }

/-! ### Expense classification (`scripts/forecast.py` lines 15–20, 248–265) -/

/-- Embedding of `series.mean()` (defined on nonempty series; the empty case is `NaN` in
pandas and outside the claims). -/
def listMean (xs : List ℚ) : ℚ := xs.sum / (xs.length : ℚ)

/-- The sample variance behind `pandas.Series.std()`, whose default is
`ddof=1`: `Σ (x - mean)² / (n - 1)` (defined for `n ≥ 2`; `n ≤ 1` is `NaN`
in pandas and outside the claims). -/
def sampleVar (xs : List ℚ) : ℚ :=
  (xs.map (fun x => (x - listMean xs) ^ 2)).sum / ((xs.length : ℚ) - 1)

/-- Embedding of `series.std()` with pandas' default `ddof=1`. -/
noncomputable def sampleStd (xs : List ℚ) : ℝ := Real.sqrt (sampleVar xs)

/-- Embedding of `calculate_cv` (`forecast.py` lines 15–20): `0` when the mean is `0`,
else `series.std() / abs(mean)` — with the pandas default sample (`ddof=1`)
standard deviation. -/
noncomputable def calculate_cv (xs : List ℚ) : ℝ :=
  if listMean xs = 0 then 0 else sampleStd xs / |(listMean xs : ℝ)|

/-- Modelled from the spec's words only, for comparison with the code: the
population standard deviation `√(Σ (x - mean)² / n)` that the spec's
"population std ÷ |mean|" rule names. -/
def popVar (xs : List ℚ) : ℚ :=
  (xs.map (fun x => (x - listMean xs) ^ 2)).sum / (xs.length : ℚ)

/-- Population standard deviation (spec's words, not the code). -/
noncomputable def popStd (xs : List ℚ) : ℝ := Real.sqrt (popVar xs)

/-- The spec-worded CV: population std over `|mean|`, `0` if the mean is 0. -/
noncomputable def spec_cv (xs : List ℚ) : ℝ :=
  if listMean xs = 0 then 0 else popStd xs / |(listMean xs : ℝ)|

/-- The diagnostic `type` row `forecast_expense` appends (`forecast.py`
lines 257–262): `is_fixed = cv < 0.3`, value `"Fixed"` if fixed else
`"Variable"`.  The same strict `cv < 0.3` test selects the fixed-expense
forecasting branch at line 229. -/
noncomputable def expense_type (xs : List ℚ) : String :=
  if calculate_cv xs < 3 / 10 then "Fixed" else "Variable"

/-! ### The decaying (Minna) income forecaster (`scripts/forecast.py`
lines 144–178) -/

/-- A diagnostic row of the `stats` side channel (category, item, parameter,
value rendered as a string, unit, description). -/
structure StatRow where
  category : String
  item : String
  parameter : String
  value : String
  unit : String
  description : String
deriving DecidableEq, Repr

/-- The positive month-over-month decrease rates of the history (lines
151–156): for each consecutive pair with positive predecessor, keep
`(prev - cur) / prev` when it is positive. -/
def decreaseRates : List ℚ → List ℚ
  | a :: b :: rest =>
    (if 0 < a ∧ 0 < (a - b) / a then [(a - b) / a] else []) ++ decreaseRates (b :: rest)
  | _ => []

/-- Embedding of `np.mean(decrease_rates) if decrease_rates else 0.5`
(line 158). -/
def avgDecrease (values : List ℚ) : ℚ :=
  let rates := decreaseRates values
  if rates.isEmpty then 1 / 2 else rates.sum / (rates.length : ℚ)

/-- The forecast chain (lines 163–166): each month's value is
`max(0, prev * (1 - avg_decrease))`, chained from the previous forecast. -/
def minnaLoop (d : ℚ) : ℚ → List String → List (String × ℚ)
  | _, [] => []
  | prev, m :: rest =>
    let new_value := max 0 (prev * (1 - d))
    (m, new_value) :: minnaLoop d new_value rest

/-- Embedding of `forecast_minna_income` (`forecast.py` lines 144–178).  The starting value
is `values[-1] if len(values) > 0 else 0` (line 161).  The function returns at
line 168; the `stats.append` block at lines 170–178 sits *after* that
`return` and is unreachable, so the `stats` list is handed back untouched. -/
def forecast_minna_income (history : List ℚ) (future_months : List String)
    (stats : List StatRow) : List (String × ℚ) × List StatRow :=
  let avg_decrease := avgDecrease history
  let prev_value := history.getLastD 0
  (minnaLoop avg_decrease prev_value future_months, stats)

/-! ### The asset roll-forward loop body (`scripts/forecast.py` lines 498–632) -/

/-- The carried totals of the roll-forward loop. -/
structure RollState where
  liquid : ℚ
  risk : ℚ
  pension : ℚ
deriving DecidableEq, Repr

/-- What one iteration computes besides the new state. -/
structure RollStepOut where
  state : RollState
  total : ℚ
  gain_loss : ℚ
  class_delta_cash : ℚ
  class_delta_risk : ℚ
  account_delta_cash : ℚ
  account_delta_risk : ℚ
deriving DecidableEq, Repr

/-- One iteration of the roll-forward loop over the balance-sheet totals
(`forecast.py` lines 499–558): add the pension contribution, split the
remaining flow, grow the risk bucket by `prev_risk * geo_return`, and route a
surplus into risk (liquid flat) or a deficit out of liquid (risk grows only);
then the total and the gain/loss against the previous total. -/
def rollForwardStep (geo_return : ℚ) (st : RollState)
    (net_savings pension_contrib : ℚ) : RollStepOut :=
  let new_pension := st.pension + pension_contrib
  let liquid_flow := net_savings - pension_contrib
  let risk_growth := st.risk * geo_return
  let step :=
    if liquid_flow > 0 then
      -- Surplus: invest everything
      (st.liquid, st.risk + risk_growth + liquid_flow, (0 : ℚ), liquid_flow, (0 : ℚ), liquid_flow)
    else
      -- Deficit: burn cash
      (st.liquid + liquid_flow, st.risk + risk_growth, liquid_flow, (0 : ℚ), liquid_flow, (0 : ℚ))
  let new_liquid := step.1
  let new_risk := step.2.1
  let total := new_liquid + new_risk + new_pension
  let prev_total := st.liquid + st.risk + st.pension
  { state := { liquid := new_liquid, risk := new_risk, pension := new_pension }
    total := total
    gain_loss := total - prev_total - net_savings
    class_delta_cash := step.2.2.1
    class_delta_risk := step.2.2.2.1
    account_delta_cash := step.2.2.2.2.1
    account_delta_risk := step.2.2.2.2.2 }

/-- The whole sequential scan over the forecast months, each month supplying
its `(net_savings, pension_contrib)` pair. -/
def rollForward (geo_return : ℚ) : RollState → List (ℚ × ℚ) → List RollStepOut
  | _, [] => []
  | st, f :: rest =>
    let out := rollForwardStep geo_return st f.1 f.2
    out :: rollForward geo_return out.state rest

/-- Every asset balance in the input is an exact integer (the regime in which
`int(...)` truncation in `balance_sheet.py` is lossless). -/
def IntBalances (assets : List Asset) : Prop := ∀ a ∈ assets, IsIntQ a.balance

/-- Every market exchange rate in the input is an exact integer. -/
def IntRates (markets : List Market) : Prop :=
  ∀ mk ∈ markets, IsIntQ mk.usd_jpy ∧ IsIntQ mk.eur_jpy

/-! ## Theorems -/

/-- Sums of integral rationals are integral. -/
lemma IsIntQ.add {p q : ℚ} (hp : IsIntQ p) (hq : IsIntQ q) : IsIntQ (p + q) := by
  obtain ⟨m, rfl⟩ := hp; obtain ⟨n, rfl⟩ := hq
  exact ⟨m + n, by push_cast; ring⟩

/-- Differences of integral rationals are integral. -/
lemma IsIntQ.sub {p q : ℚ} (hp : IsIntQ p) (hq : IsIntQ q) : IsIntQ (p - q) := by
  obtain ⟨m, rfl⟩ := hp; obtain ⟨n, rfl⟩ := hq
  exact ⟨m - n, by push_cast; ring⟩

/-- Products of integral rationals are integral. -/
lemma IsIntQ.mul {p q : ℚ} (hp : IsIntQ p) (hq : IsIntQ q) : IsIntQ (p * q) := by
  obtain ⟨m, rfl⟩ := hp; obtain ⟨n, rfl⟩ := hq
  exact ⟨m * n, by push_cast; ring⟩

/-- Zero is integral. -/
lemma isIntQ_zero : IsIntQ (0 : ℚ) := ⟨0, by norm_num⟩

/-- One is integral. -/
lemma isIntQ_one : IsIntQ (1 : ℚ) := ⟨1, by norm_num⟩

/-- Integer casts are integral. -/
lemma isIntQ_intCast (n : ℤ) : IsIntQ (n : ℚ) := ⟨n, rfl⟩

/-- Python `int(...)` is the identity on integers. -/
lemma pytrunc_intCast (n : ℤ) : pytrunc (n : ℚ) = n := by simp [pytrunc]

/-- Python `int(0.0) == 0`. -/
lemma pytrunc_zero : pytrunc 0 = 0 := by simp [pytrunc]

/-- A market row found through `market_map` comes from the market list. -/
lemma market_map_mem {markets : List Market} {k : String} {mk : Market}
    (h : market_map markets k = some mk) : mk ∈ markets :=
  List.mem_of_mem_filter (List.mem_of_mem_getLast? h)

/-- With integral market rates, every conversion rate is integral. -/
lemma convRate_int {markets : List Market} (hM : IntRates markets) (acc : Account)
    (k : String) : IsIntQ (convRate acc (market_map markets k)) := by
  cases hcur : acc.currency <;> simp [convRate, hcur]
  case USD =>
    cases hmk : market_map markets k with
    | none => exact isIntQ_one
    | some mk => exact (hM mk (market_map_mem hmk)).1
  case EUR =>
    cases hmk : market_map markets k with
    | none => exact isIntQ_one
    | some mk => exact (hM mk (market_map_mem hmk)).2
  all_goals exact isIntQ_one

/-- With integral balances and conversion rates, one accumulation step keeps
all three bucket totals integral. -/
lemma bucketStep_int {amap : String → Option Account} {mkt : Option Market}
    (hmk : ∀ acc : Account, IsIntQ (convRate acc mkt))
    {st : ℚ × ℚ × ℚ} (hst : IsIntQ st.1 ∧ IsIntQ st.2.1 ∧ IsIntQ st.2.2)
    {a : Asset} (ha : IsIntQ a.balance) :
    IsIntQ (bucketStep amap mkt st a).1 ∧ IsIntQ (bucketStep amap mkt st a).2.1 ∧
      IsIntQ (bucketStep amap mkt st a).2.2 := by
  rw [bucketStep]
  cases amap a.account_id with
  | none => exact hst
  | some acc =>
    have hjpy : IsIntQ (a.balance * convRate acc mkt) := ha.mul (hmk acc)
    by_cases h1 : acc.type = AccountType.pension
    · simp only [h1, if_true]
      exact ⟨hst.1, hst.2.1, hst.2.2.add hjpy⟩
    · by_cases h2 : acc.risk = 1
      · simp only [h1, if_false, h2, if_true]
        exact ⟨hst.1, hst.2.1.add hjpy, hst.2.2⟩
      · simp only [h1, if_false, h2]
        exact ⟨hst.1.add hjpy, hst.2.1, hst.2.2⟩

/-- With integral balances and conversion rates, the month's bucket totals are
integral. -/
lemma bucketTotals_int (amap : String → Option Account) (mkt : Option Market)
    (hmk : ∀ acc : Account, IsIntQ (convRate acc mkt)) :
    ∀ (current : List Asset), (∀ a ∈ current, IsIntQ a.balance) →
      ∀ st : ℚ × ℚ × ℚ, IsIntQ st.1 ∧ IsIntQ st.2.1 ∧ IsIntQ st.2.2 →
        IsIntQ (current.foldl (bucketStep amap mkt) st).1 ∧
        IsIntQ (current.foldl (bucketStep amap mkt) st).2.1 ∧
        IsIntQ (current.foldl (bucketStep amap mkt) st).2.2 := by
  intro current
  induction current with
  | nil => intro _ st hst; simpa using hst
  | cons a rest ih =>
    intro hall st hst
    simp only [List.foldl_cons]
    exact ih (fun x hx => hall x (List.mem_cons_of_mem a hx))
      (bucketStep amap mkt st a) (bucketStep_int hmk hst (hall a (List.mem_cons_self a rest)))

/-- C5: for every iteration of the asset roll-forward loop, a positive
`liquid_flow = net_savings - pension_contrib` leaves the liquid total flat and
sends growth plus the whole flow into risk
(`new_risk = prev_risk + prev_risk * geo_return + liquid_flow`), while a
non-positive `liquid_flow` is absorbed by the liquid total
(`new_liquid = prev_liquid + liquid_flow`) with risk growing by
`prev_risk * geo_return` only. -/
theorem c5_roll_forward_branches (geo_return : ℚ) (st : RollState)
    (net_savings pension_contrib : ℚ) :
    (net_savings - pension_contrib > 0 →
      (rollForwardStep geo_return st net_savings pension_contrib).state.liquid = st.liquid ∧
      (rollForwardStep geo_return st net_savings pension_contrib).state.risk
        = st.risk + st.risk * geo_return + (net_savings - pension_contrib)) ∧
    (net_savings - pension_contrib ≤ 0 →
      (rollForwardStep geo_return st net_savings pension_contrib).state.liquid
        = st.liquid + (net_savings - pension_contrib) ∧
      (rollForwardStep geo_return st net_savings pension_contrib).state.risk
        = st.risk + st.risk * geo_return) := by
  refine ⟨fun h => ?_, fun h => ?_⟩
  · have hc : pension_contrib < net_savings := by linarith
    simp [rollForwardStep, hc]
  · have hc : ¬pension_contrib < net_savings := not_lt.mpr (by linarith)
    simp [rollForwardStep, hc]

/-- Witness for C5 at a concrete surplus month and a concrete deficit month. -/
theorem c5_roll_forward_branches_witness :
    ((30 : ℚ) - 10 > 0 ∧
      (rollForwardStep (1/10) ⟨100, 200, 50⟩ 30 10).state.liquid = 100 ∧
      (rollForwardStep (1/10) ⟨100, 200, 50⟩ 30 10).state.risk
        = 200 + 200 * (1/10) + (30 - 10)) ∧
    ((5 : ℚ) - 10 ≤ 0 ∧
      (rollForwardStep (1/10) ⟨100, 200, 50⟩ 5 10).state.liquid = 100 + (5 - 10) ∧
      (rollForwardStep (1/10) ⟨100, 200, 50⟩ 5 10).state.risk = 200 + 200 * (1/10)) :=
  ⟨⟨by norm_num, (c5_roll_forward_branches (1/10) ⟨100, 200, 50⟩ 30 10).1 (by norm_num)⟩,
   ⟨by norm_num, (c5_roll_forward_branches (1/10) ⟨100, 200, 50⟩ 5 10).2 (by norm_num)⟩⟩

/-- C10: `forecast_minna_income` hands the `stats` side channel back exactly
as it received it, for every history, future-month list and stats list — the
diagnostic-append block of `forecast.py` lines 170–178 sits after the `return`
at line 168 and never runs, so no `decrease_rate` parameter is emitted. -/
theorem c10_minna_stats_unchanged (history : List ℚ) (future_months : List String)
    (stats : List StatRow) :
    (forecast_minna_income history future_months stats).2 = stats := rfl

/-- C6: the metrics loop's carrying discipline.  A month carrying both a
cash-flow and a balance-sheet entry is processed: the carried balance-sheet
snapshot becomes that month's balance sheet and the carried market snapshot
becomes that month's market row exactly when one exists (otherwise it is kept).
A month missing either entry — for example a month having a `Market` row but
no cash-flow or balance-sheet entry — is skipped with both carried snapshots
untouched, so a gap in one input series never erases the running reference
point used by the other computations. -/
theorem c6_metrics_carrying (cfmap : String → Option CashFlowStatement)
    (bsmap : String → Option BalanceSheet) (mmap : String → Option Market)
    (m : String) (rest : List String)
    (prevBs : Option BalanceSheet) (prevMkt : Option Market) :
    (∀ cf bs, cfmap m = some cf → bsmap m = some bs →
      metricsLoop cfmap bsmap mmap (m :: rest) prevBs prevMkt
        = computeFM m cf bs (mmap m) prevBs prevMkt
          :: metricsLoop cfmap bsmap mmap rest (some bs)
              (if (mmap m).isSome then mmap m else prevMkt)) ∧
    ((cfmap m = none ∨ bsmap m = none) →
      metricsLoop cfmap bsmap mmap (m :: rest) prevBs prevMkt
        = metricsLoop cfmap bsmap mmap rest prevBs prevMkt) := by
  constructor
  · intro cf bs hcf hbs
    simp [metricsLoop, hcf, hbs]
  · intro h
    rcases h with h | h
    · simp [metricsLoop, h]
    · cases hc : cfmap m <;> simp [metricsLoop, h, hc]

/-- Witness for C6: a month with a market row but no statements is skipped
with the carried state untouched. -/
theorem c6_metrics_carrying_witness :
    metricsLoop (fun _ => none) (fun _ => none)
        (fun _ => some ⟨"2024-02", 150, 160, 5000⟩) ["2024-02"] none none
      = metricsLoop (fun _ => none) (fun _ => none)
          (fun _ => some ⟨"2024-02", 150, 160, 5000⟩) [] none none :=
  (c6_metrics_carrying (fun _ => none) (fun _ => none)
      (fun _ => some ⟨"2024-02", 150, 160, 5000⟩) "2024-02" [] none none).2 (Or.inl rfl)

/-- Helper for C8: from a nonnegative start, the forecast chain of
`forecast_minna_income` is non-increasing (start included) and nonnegative,
as soon as the decrease rate is below 1. -/
lemma minnaLoop_chain_aux (d : ℚ) (hd : 0 < d) :
    ∀ (months : List String) (prev : ℚ), 0 ≤ prev →
      List.Chain' (fun a b => b ≤ a) (prev :: (minnaLoop d prev months).map Prod.snd) ∧
      ∀ v ∈ (minnaLoop d prev months).map Prod.snd, 0 ≤ v := by
  intro months
  induction months with
  | nil => intro prev _; simp [minnaLoop]
  | cons m rest ih =>
    intro prev hp
    have hnewle : max 0 (prev * (1 - d)) ≤ prev := by
      refine max_le hp ?_
      calc prev * (1 - d) ≤ prev * 1 := by
            exact mul_le_mul_of_nonneg_left (by linarith) hp
        _ = prev := mul_one prev
    have hnew0 : (0 : ℚ) ≤ max 0 (prev * (1 - d)) := le_max_left 0 _
    obtain ⟨ch, nn⟩ := ih (max 0 (prev * (1 - d))) hnew0
    refine ⟨?_, ?_⟩
    · simp only [minnaLoop, List.map_cons]
      exact List.chain'_cons.mpr ⟨hnewle, ch⟩
    · intro v hv
      simp only [minnaLoop, List.map_cons, List.mem_cons] at hv
      rcases hv with rfl | hv
      · exact hnew0
      · exact nn v hv

/-- C8: if the last historical value is strictly positive and the computed
average decrease rate lies in `(0, 1)`, the decaying-type (Minna) forecast
values are non-increasing month over month and all nonnegative. -/
theorem c8_minna_monotone (history : List ℚ) (future_months : List String)
    (stats : List StatRow) (h0 : 0 < history.getLastD 0)
    (h1 : 0 < avgDecrease history) (h2 : avgDecrease history < 1) :
    List.Chain' (fun a b => b ≤ a)
      (((forecast_minna_income history future_months stats).1).map Prod.snd) ∧
    ∀ v ∈ ((forecast_minna_income history future_months stats).1).map Prod.snd, 0 ≤ v := by
  have h := minnaLoop_chain_aux (avgDecrease history) h1 future_months
    (history.getLastD 0) h0.le
  exact ⟨h.1.tail, h.2⟩

/-- Witness for C8 at the concrete history `[4, 2]` (average decrease rate
`1/2`, last value `2`) and two forecast months. -/
theorem c8_minna_monotone_witness :
    (0 < ([4, 2] : List ℚ).getLastD 0 ∧ 0 < avgDecrease [4, 2] ∧ avgDecrease [4, 2] < 1) ∧
    (List.Chain' (fun a b => b ≤ a)
      (((forecast_minna_income [4, 2] ["2025-01", "2025-02"] []).1).map Prod.snd) ∧
    ∀ v ∈ ((forecast_minna_income [4, 2] ["2025-01", "2025-02"] []).1).map Prod.snd, 0 ≤ v) :=
  ⟨⟨by norm_num, by norm_num [avgDecrease, decreaseRates],
     by norm_num [avgDecrease, decreaseRates]⟩,
   c8_minna_monotone [4, 2] ["2025-01", "2025-02"] [] (by norm_num)
     (by norm_num [avgDecrease, decreaseRates]) (by norm_num [avgDecrease, decreaseRates])⟩

/-- Helper for C7: with at least two observations, the `ddof=1` sample
variance is the population variance scaled by `n / (n - 1)`. -/
lemma sampleVar_eq_scaled_popVar (xs : List ℚ) (h : 2 ≤ xs.length) :
    sampleVar xs = ((xs.length : ℚ) / ((xs.length : ℚ) - 1)) * popVar xs := by
  have hn : (2 : ℚ) ≤ (xs.length : ℚ) := by exact_mod_cast h
  have h0 : (xs.length : ℚ) ≠ 0 := by linarith
  have h1 : (xs.length : ℚ) - 1 ≠ 0 := by intro hc; rw [sub_eq_zero] at hc; rw [hc] at hn; norm_num at hn
  rw [sampleVar, popVar]
  field_simp
  ring

/-- C7 counterexample: on the series `[0, 2]`, `calculate_cv` returns the
sample (`ddof=1`) coefficient `√2`, not the population coefficient `1` the
claim states. -/
theorem c7_counterexample : calculate_cv [0, 2] ≠ spec_cv [0, 2] := by
  have hmean : listMean [0, 2] = 1 := by norm_num [listMean]
  have hsv : sampleVar [0, 2] = 2 := by norm_num [sampleVar, listMean]
  have hpv : popVar [0, 2] = 1 := by norm_num [popVar, listMean]
  have hcv : calculate_cv [0, 2] = Real.sqrt 2 := by
    rw [calculate_cv, if_neg (by rw [hmean]; norm_num), sampleStd, hsv, hmean]
    norm_num
  have hsp : spec_cv [0, 2] = 1 := by
    rw [spec_cv, if_neg (by rw [hmean]; norm_num), popStd, hpv, hmean]
    norm_num
  rw [hcv, hsp]
  intro hc
  have : (2 : ℝ) = 1 := Real.sqrt_eq_one.mp hc
  norm_num at this

/-- C7 as amended: for histories of length at least 2 (where pandas'
`std()` is defined), `calculate_cv` is the *sample* (`ddof=1`) standard
deviation over `|mean|` — equivalently `√(n/(n-1) · population variance)`
over `|mean|` — with 0 when the mean is 0; and the diagnostic classification
of `forecast_expense` is `"Fixed"` exactly when `cv < 0.3`, `"Variable"`
exactly when `cv ≥ 0.3` (so a series with `cv = 0.3` is `"Variable"`). -/
theorem c7_cv_classification (xs : List ℚ) (h : 2 ≤ xs.length) :
    calculate_cv xs
      = (if listMean xs = 0 then 0
         else Real.sqrt (((xs.length : ℝ) / ((xs.length : ℝ) - 1)) * (popVar xs : ℝ))
              / |(listMean xs : ℝ)|) ∧
    (expense_type xs = "Fixed" ↔ calculate_cv xs < 3 / 10) ∧
    (expense_type xs = "Variable" ↔ 3 / 10 ≤ calculate_cv xs) := by
  refine ⟨?_, ?_, ?_⟩
  · have hv := sampleVar_eq_scaled_popVar xs h
    by_cases hm : listMean xs = 0
    · simp [calculate_cv, hm]
    · rw [calculate_cv, if_neg hm, if_neg hm, sampleStd, hv]
      congr 1
      push_cast
      norm_num
  · rw [expense_type]
    by_cases hc : calculate_cv xs < 3 / 10
    · simp [hc]
    · simp [hc]
  · rw [expense_type]
    by_cases hc : calculate_cv xs < 3 / 10
    · simp [hc, not_le.mpr hc]
    · simp [hc, not_lt.mp hc]

/-- Witness for C7's amended theorem at the series `[0, 2]`. -/
theorem c7_cv_classification_witness :
    2 ≤ ([0, 2] : List ℚ).length ∧
    (calculate_cv [0, 2]
      = (if listMean [0, 2] = 0 then 0
         else Real.sqrt (((([0, 2] : List ℚ).length : ℝ)
              / ((([0, 2] : List ℚ).length : ℝ) - 1)) * (popVar [0, 2] : ℝ))
              / |(listMean [0, 2] : ℝ)|) ∧
    (expense_type [0, 2] = "Fixed" ↔ calculate_cv [0, 2] < 3 / 10) ∧
    (expense_type [0, 2] = "Variable" ↔ 3 / 10 ≤ calculate_cv [0, 2])) :=
  ⟨by norm_num, c7_cv_classification [0, 2] (by norm_num)⟩

/-- Unfolding: a month with no asset rows (present only through market data)
is skipped by the balance-sheet loop. -/
lemma bsLoopQ_cons_skip (amap : String → Option Account) (mmap : String → Option Market)
    (cfmap : String → Option CashFlowStatement) (assets : List Asset) (m : String)
    (rest : List String) (prevT : ℚ) (isFirst : Bool)
    (he : (assets_of_month assets m).isEmpty = true) :
    bsLoopQ amap mmap cfmap assets (m :: rest) prevT isFirst
      = bsLoopQ amap mmap cfmap assets rest prevT isFirst := by
  rw [bsLoopQ]
  simp [he]

/-- Unfolding: a month with asset rows emits one row and recurses with the
untruncated total as the new `prev_total_assets` and the first-row flag
cleared. -/
lemma bsLoopQ_cons_emit (amap : String → Option Account) (mmap : String → Option Market)
    (cfmap : String → Option CashFlowStatement) (assets : List Asset) (m : String)
    (rest : List String) (prevT : ℚ) (isFirst : Bool)
    (he : (assets_of_month assets m).isEmpty = false) :
    bsLoopQ amap mmap cfmap assets (m :: rest) prevT isFirst
      = { month := m,
          liquidQ := (bucketTotals amap (mmap m) (assets_of_month assets m)).1,
          riskQ := (bucketTotals amap (mmap m) (assets_of_month assets m)).2.1,
          pensionQ := (bucketTotals amap (mmap m) (assets_of_month assets m)).2.2,
          totalQ := (bucketTotals amap (mmap m) (assets_of_month assets m)).1
            + (bucketTotals amap (mmap m) (assets_of_month assets m)).2.1
            + (bucketTotals amap (mmap m) (assets_of_month assets m)).2.2,
          gainQ := if isFirst then 0 else
            (bucketTotals amap (mmap m) (assets_of_month assets m)).1
            + (bucketTotals amap (mmap m) (assets_of_month assets m)).2.1
            + (bucketTotals amap (mmap m) (assets_of_month assets m)).2.2
            - (prevT + (nsOf cfmap m : ℚ)) }
        :: bsLoopQ amap mmap cfmap assets rest
            ((bucketTotals amap (mmap m) (assets_of_month assets m)).1
              + (bucketTotals amap (mmap m) (assets_of_month assets m)).2.1
              + (bucketTotals amap (mmap m) (assets_of_month assets m)).2.2) false := by
  rw [bsLoopQ]
  simp [he]

/-- Every row the balance-sheet loop emits carries, pre-truncation, a total
that is exactly the sum of its three buckets. -/
lemma bsLoopQ_total_eq (amap : String → Option Account) (mmap : String → Option Market)
    (cfmap : String → Option CashFlowStatement) (assets : List Asset) :
    ∀ (months : List String) (prevT : ℚ) (isFirst : Bool),
      ∀ q ∈ bsLoopQ amap mmap cfmap assets months prevT isFirst,
        q.totalQ = q.liquidQ + q.riskQ + q.pensionQ := by
  intro months
  induction months with
  | nil => intro prevT isFirst q hq; simp [bsLoopQ] at hq
  | cons m rest ih =>
    intro prevT isFirst q hq
    by_cases he : (assets_of_month assets m).isEmpty = true
    · rw [bsLoopQ_cons_skip amap mmap cfmap assets m rest prevT isFirst he] at hq
      exact ih _ _ q hq
    · have he' : (assets_of_month assets m).isEmpty = false := by simpa using he
      rw [bsLoopQ_cons_emit amap mmap cfmap assets m rest prevT isFirst he'] at hq
      rcases List.mem_cons.mp hq with rfl | hq
      · rfl
      · exact ih _ _ q hq

/-- The very first row the balance-sheet loop emits has gain 0. -/
lemma bsLoopQ_first_gain (amap : String → Option Account) (mmap : String → Option Market)
    (cfmap : String → Option CashFlowStatement) (assets : List Asset) :
    ∀ (months : List String) (prevT : ℚ) (q : BalanceSheetQ),
      (bsLoopQ amap mmap cfmap assets months prevT true)[0]? = some q → q.gainQ = 0 := by
  intro months
  induction months with
  | nil => intro prevT q h; simp [bsLoopQ] at h
  | cons m rest ih =>
    intro prevT q h
    by_cases he : (assets_of_month assets m).isEmpty = true
    · rw [bsLoopQ_cons_skip amap mmap cfmap assets m rest prevT true he] at h
      exact ih _ q h
    · have he' : (assets_of_month assets m).isEmpty = false := by simpa using he
      rw [bsLoopQ_cons_emit amap mmap cfmap assets m rest prevT true he',
        List.getElem?_cons_zero] at h
      obtain rfl := Option.some_injective _ h
      rfl

/-- Below the first emission, the head row's gain is the exact difference of
its total against the carried previous total, minus the month's net savings. -/
lemma bsLoopQ_head_gain (amap : String → Option Account) (mmap : String → Option Market)
    (cfmap : String → Option CashFlowStatement) (assets : List Asset) :
    ∀ (months : List String) (prevT : ℚ) (q : BalanceSheetQ),
      (bsLoopQ amap mmap cfmap assets months prevT false)[0]? = some q →
      q.gainQ = q.totalQ - prevT - (nsOf cfmap q.month : ℚ) := by
  intro months
  induction months with
  | nil => intro prevT q h; simp [bsLoopQ] at h
  | cons m rest ih =>
    intro prevT q h
    by_cases he : (assets_of_month assets m).isEmpty = true
    · rw [bsLoopQ_cons_skip amap mmap cfmap assets m rest prevT false he] at h
      exact ih _ q h
    · have he' : (assets_of_month assets m).isEmpty = false := by simpa using he
      rw [bsLoopQ_cons_emit amap mmap cfmap assets m rest prevT false he',
        List.getElem?_cons_zero] at h
      obtain rfl := Option.some_injective _ h
      simp only [Bool.false_eq_true, if_false]
      ring

/-- Consecutive rows of the balance-sheet loop: the later row's pre-truncation
gain is its pre-truncation total minus the previous row's pre-truncation
total minus its month's net savings. -/
lemma bsLoopQ_chain (amap : String → Option Account) (mmap : String → Option Market)
    (cfmap : String → Option CashFlowStatement) (assets : List Asset) :
    ∀ (months : List String) (prevT : ℚ) (isFirst : Bool) (i : ℕ) (q₁ q₂ : BalanceSheetQ),
      (bsLoopQ amap mmap cfmap assets months prevT isFirst)[i]? = some q₁ →
      (bsLoopQ amap mmap cfmap assets months prevT isFirst)[i + 1]? = some q₂ →
      q₂.gainQ = q₂.totalQ - q₁.totalQ - (nsOf cfmap q₂.month : ℚ) := by
  intro months
  induction months with
  | nil => intro _ _ i q₁ q₂ h _; simp [bsLoopQ] at h
  | cons m rest ih =>
    intro prevT isFirst i q₁ q₂ h1 h2
    by_cases he : (assets_of_month assets m).isEmpty = true
    · rw [bsLoopQ_cons_skip amap mmap cfmap assets m rest prevT isFirst he] at h1 h2
      exact ih _ _ i q₁ q₂ h1 h2
    · have he' : (assets_of_month assets m).isEmpty = false := by simpa using he
      rw [bsLoopQ_cons_emit amap mmap cfmap assets m rest prevT isFirst he'] at h1 h2
      cases i with
      | zero =>
        rw [List.getElem?_cons_zero] at h1
        rw [List.getElem?_cons_succ] at h2
        obtain rfl := Option.some_injective _ h1
        exact bsLoopQ_head_gain amap mmap cfmap assets rest _ q₂ h2
      | succ n =>
        rw [List.getElem?_cons_succ] at h1 h2
        exact ih _ _ n q₁ q₂ h1 h2

/-- On integral inputs every pre-truncation field of every emitted row is
integral. -/
lemma bsLoopQ_int {assets : List Asset} {markets : List Market}
    (amap : String → Option Account) (cfmap : String → Option CashFlowStatement)
    (hA : IntBalances assets) (hM : IntRates markets) :
    ∀ (months : List String) (prevT : ℚ), IsIntQ prevT → ∀ (isFirst : Bool),
      ∀ q ∈ bsLoopQ amap (market_map markets) cfmap assets months prevT isFirst,
        IsIntQ q.liquidQ ∧ IsIntQ q.riskQ ∧ IsIntQ q.pensionQ ∧
          IsIntQ q.totalQ ∧ IsIntQ q.gainQ := by
  intro months
  induction months with
  | nil => intro prevT _ isFirst q hq; simp [bsLoopQ] at hq
  | cons m rest ih =>
    intro prevT hprev isFirst q hq
    have hbuck := bucketTotals_int amap (market_map markets m)
      (fun acc => convRate_int hM acc m)
      (assets_of_month assets m)
      (fun a ha => hA a (List.mem_of_mem_filter ha))
      (0, 0, 0) ⟨isIntQ_zero, isIntQ_zero, isIntQ_zero⟩
    by_cases he : (assets_of_month assets m).isEmpty = true
    · rw [bsLoopQ_cons_skip amap (market_map markets) cfmap assets m rest prevT isFirst he] at hq
      exact ih _ hprev _ q hq
    · have he' : (assets_of_month assets m).isEmpty = false := by simpa using he
      rw [bsLoopQ_cons_emit amap (market_map markets) cfmap assets m rest prevT isFirst he'] at hq
      obtain ⟨hl, hr, hp⟩ : IsIntQ (bucketTotals amap (market_map markets m)
          (assets_of_month assets m)).1 ∧
          IsIntQ (bucketTotals amap (market_map markets m) (assets_of_month assets m)).2.1 ∧
          IsIntQ (bucketTotals amap (market_map markets m) (assets_of_month assets m)).2.2 :=
        hbuck
      have htot := (hl.add hr).add hp
      rcases List.mem_cons.mp hq with rfl | hq
      · refine ⟨hl, hr, hp, htot, ?_⟩
        cases isFirst with
        | true => exact isIntQ_zero
        | false => exact htot.sub (hprev.add (isIntQ_intCast _))
      · exact ih _ htot _ q hq

/-- Indexing a zip of two lists. -/
lemma zip_getElem_some {α β : Type} :
    ∀ (l₁ : List α) (l₂ : List β) (i : ℕ),
      (l₁.zip l₂)[i]? = (l₁[i]?).bind fun a => (l₂[i]?).map fun b => (a, b) := by
  intro l₁
  induction l₁ with
  | nil => intro l₂ i; simp
  | cons a r ih =>
    intro l₂ i
    cases l₂ with
    | nil => simp
    | cons b r₂ =>
      cases i with
      | zero => simp
      | succ n => simpa using ih r₂ n

/-- Below the head, the shifted-difference gains column of
`calculate_bs_derived` relates each entry to the two underlying rows. -/
lemma gainsAux_chain :
    ∀ (df : List CombinedRow) (prev : ℚ) (i : ℕ) (r₁ r₂ : CombinedRow),
      df[i]? = some r₁ → df[i + 1]? = some r₂ →
      (gainsAux prev df)[i + 1]? = some (dfTotal r₂ - dfTotal r₁ - r₂.net_savings) := by
  intro df
  induction df with
  | nil => intro prev i r₁ r₂ h _; simp at h
  | cons r rest ih =>
    intro prev i r₁ r₂ h1 h2
    cases i with
    | zero =>
      rw [List.getElem?_cons_zero] at h1
      obtain rfl := Option.some_injective _ h1
      rw [List.getElem?_cons_succ] at h2
      cases rest with
      | nil => simp at h2
      | cons r' rest' =>
        rw [List.getElem?_cons_zero] at h2
        obtain rfl := Option.some_injective _ h2
        simp [gainsAux]
    | succ n =>
      rw [List.getElem?_cons_succ] at h1 h2
      simpa [gainsAux] using ih (dfTotal r) n r₁ r₂ h1 h2

/-- The full gains column of `calculate_bs_derived` below the first row. -/
lemma bsGains_chain (df : List CombinedRow) (i : ℕ) (r₁ r₂ : CombinedRow)
    (h1 : df[i]? = some r₁) (h2 : df[i + 1]? = some r₂) :
    (bsGains df)[i + 1]? = some (dfTotal r₂ - dfTotal r₁ - r₂.net_savings) := by
  cases df with
  | nil => simp at h1
  | cons r rest =>
    cases i with
    | zero =>
      rw [List.getElem?_cons_zero] at h1
      obtain rfl := Option.some_injective _ h1
      rw [List.getElem?_cons_succ] at h2
      cases rest with
      | nil => simp at h2
      | cons r' rest' =>
        rw [List.getElem?_cons_zero] at h2
        obtain rfl := Option.some_injective _ h2
        simp [bsGains, gainsAux]
    | succ n =>
      rw [List.getElem?_cons_succ] at h1 h2
      simp only [bsGains, List.getElem?_cons_succ]
      exact gainsAux_chain rest (dfTotal r) n r₁ r₂ h1 h2

/-- Row-level characterization of `calculate_bs_derived`. -/
lemma calculate_bs_derived_getElem (df : List CombinedRow) (i : ℕ) :
    (calculate_bs_derived df)[i]?
      = (df[i]?).bind fun r => ((bsGains df)[i]?).map fun g =>
          { r with total_financial_assets := dfTotal r, investment_gain_loss := g } := by
  rw [calculate_bs_derived, List.getElem?_map, zip_getElem_some]
  cases df[i]? <;> cases (bsGains df)[i]? <;> simp

/-- C1 counterexample: the claim fails on the history calculator as soon as a
bucket total is fractional — with two half-unit JPY balances, one liquid and
one risk, the emitted row is `(liquid, risk, pension, total) = (0, 0, 0, 1)`
because each field is truncated by `int(...)` separately, so
`total_financial_assets ≠ liquid_assets + risk_assets + pension_assets`. -/
theorem c1_counterexample :
    ∃ bs ∈ BalanceSheetCalculator_calculate
        [⟨"2024-01", "a", "cash", 1/2⟩, ⟨"2024-01", "b", "fund", 1/2⟩] []
        [⟨"a", "A", AccountType.bank, Currency.JPY, 0⟩,
         ⟨"b", "B", AccountType.securities, Currency.JPY, 1⟩] [],
      bs.total_financial_assets ≠ bs.liquid_assets + bs.risk_assets + bs.pension_assets := by
  have hev : BalanceSheetCalculator_calculate
      [⟨"2024-01", "a", "cash", 1/2⟩, ⟨"2024-01", "b", "fund", 1/2⟩] []
      [⟨"a", "A", AccountType.bank, Currency.JPY, 0⟩,
       ⟨"b", "B", AccountType.securities, Currency.JPY, 1⟩] []
      = [⟨"2024-01", 0, 0, 0, 1, 0⟩] := by
    simp [BalanceSheetCalculator_calculate, bsLoopQ, sorted_months, assets_of_month,
      account_map, market_map, cf_map, bucketTotals, bucketStep, convRate,
      truncRow, pytrunc, nsOf, List.insertionSort, List.orderedInsert, List.dedup,
      List.filter, List.foldl]
    norm_num
    decide
  rw [hev]
  exact ⟨⟨"2024-01", 0, 0, 0, 1, 0⟩, List.mem_singleton_self _, by norm_num⟩

/-- C1 as amended: pre-truncation, every row of the history calculator has
`totalQ = liquidQ + riskQ + pensionQ` exactly; the *emitted* (truncated)
fields satisfy `total_financial_assets = liquid_assets + risk_assets +
pension_assets` whenever all asset balances and market rates are integral
(truncation is then lossless); and every row of the combined-series
recomputation `calculate_bs_derived` satisfies the emitted identity exactly,
unconditionally. -/
theorem c1_total_identity :
    (∀ (assets : List Asset) (markets : List Market) (accounts : List Account)
        (cashflows : List CashFlowStatement),
      ∀ q ∈ bsLoopQ (account_map accounts) (market_map markets) (cf_map cashflows)
          assets (sorted_months assets markets) 0 true,
        q.totalQ = q.liquidQ + q.riskQ + q.pensionQ) ∧
    (∀ (assets : List Asset) (markets : List Market) (accounts : List Account)
        (cashflows : List CashFlowStatement),
      IntBalances assets → IntRates markets →
      ∀ bs ∈ BalanceSheetCalculator_calculate assets markets accounts cashflows,
        bs.total_financial_assets = bs.liquid_assets + bs.risk_assets + bs.pension_assets) ∧
    (∀ df : List CombinedRow, ∀ r ∈ calculate_bs_derived df,
        r.total_financial_assets = r.liquid_assets + r.risk_assets + r.pension_assets) := by
  refine ⟨?_, ?_, ?_⟩
  · intro assets markets accounts cashflows q hq
    exact bsLoopQ_total_eq _ _ _ _ _ _ _ q hq
  · intro assets markets accounts cashflows hA hM bs hbs
    rw [BalanceSheetCalculator_calculate] at hbs
    obtain ⟨q, hq, rfl⟩ := List.mem_map.mp hbs
    obtain ⟨⟨nl, hl⟩, ⟨nr, hr⟩, ⟨np, hp⟩, -, -⟩ :=
      bsLoopQ_int (account_map accounts) (cf_map cashflows) hA hM _ _ isIntQ_zero _ q hq
    have htot := bsLoopQ_total_eq (account_map accounts) (market_map markets)
      (cf_map cashflows) assets _ _ _ q hq
    simp only [truncRow]
    rw [hl, hr, hp] at htot
    rw [htot, hl, hr, hp]
    have hcast : (nl : ℚ) + (nr : ℚ) + (np : ℚ) = ((nl + nr + np : ℤ) : ℚ) := by
      push_cast; ring
    rw [hcast, pytrunc_intCast, pytrunc_intCast, pytrunc_intCast, pytrunc_intCast]
  · intro df r hr
    rw [calculate_bs_derived] at hr
    obtain ⟨p, _, rfl⟩ := List.mem_map.mp hr
    simp [dfTotal]

/-- Witness for C1's amended theorem on an integral input. -/
theorem c1_total_identity_witness :
    IntBalances [⟨"2024-01", "a", "cash", 5⟩] ∧ IntRates [] ∧
    ∀ bs ∈ BalanceSheetCalculator_calculate [⟨"2024-01", "a", "cash", 5⟩] []
        [⟨"a", "A", AccountType.bank, Currency.JPY, 0⟩] [],
      bs.total_financial_assets = bs.liquid_assets + bs.risk_assets + bs.pension_assets :=
  ⟨fun a ha => by
      rw [List.mem_singleton] at ha; subst ha; exact ⟨5, by norm_num⟩,
   fun mk hmk => by simp at hmk,
   c1_total_identity.2.1 _ _ _ []
     (fun a ha => by rw [List.mem_singleton] at ha; subst ha; exact ⟨5, by norm_num⟩)
     (fun mk hmk => by simp at hmk)⟩

/-- C2 counterexample: with fractional balances (0.9 then 1.0 in a liquid
JPY account, no cash flows) the history calculator emits totals 0 and 1 but a
gain of 0 for the second month — the gain is computed from the *untruncated*
running totals (1.0 − 0.9 = 0.1, truncated to 0), so it does not equal the
difference of the emitted totals minus net savings (1 − 0 − 0 = 1). -/
theorem c2_counterexample :
    ∃ (bs₁ bs₂ : BalanceSheet),
      (BalanceSheetCalculator_calculate
        [⟨"2024-01", "a", "cash", 9/10⟩, ⟨"2024-02", "a", "cash", 1⟩] []
        [⟨"a", "A", AccountType.bank, Currency.JPY, 0⟩] [])[0]? = some bs₁ ∧
      (BalanceSheetCalculator_calculate
        [⟨"2024-01", "a", "cash", 9/10⟩, ⟨"2024-02", "a", "cash", 1⟩] []
        [⟨"a", "A", AccountType.bank, Currency.JPY, 0⟩] [])[1]? = some bs₂ ∧
      bs₂.investment_gain_loss
        ≠ bs₂.total_financial_assets - bs₁.total_financial_assets
          - nsOf (cf_map []) bs₂.month := by
  have hev : BalanceSheetCalculator_calculate
      [⟨"2024-01", "a", "cash", 9/10⟩, ⟨"2024-02", "a", "cash", 1⟩] []
      [⟨"a", "A", AccountType.bank, Currency.JPY, 0⟩] []
      = [⟨"2024-01", 0, 0, 0, 0, 0⟩, ⟨"2024-02", 1, 0, 0, 1, 0⟩] := by
    have h1 : ("2024-01" : String) ≤ "2024-02" := by simp; decide
    simp [BalanceSheetCalculator_calculate, bsLoopQ, sorted_months, assets_of_month,
      account_map, market_map, cf_map, bucketTotals, bucketStep, convRate,
      truncRow, pytrunc, nsOf, List.insertionSort, List.orderedInsert, List.dedup,
      List.filter, List.foldl, h1]
    norm_num
    decide
  refine ⟨⟨"2024-01", 0, 0, 0, 0, 0⟩, ⟨"2024-02", 1, 0, 0, 1, 0⟩, ?_, ?_, ?_⟩
  · rw [hev]; rfl
  · rw [hev]; rfl
  · have hns : nsOf (cf_map []) "2024-02" = 0 := by simp [nsOf, cf_map]
    simp only [hns]
    norm_num

/-- C2 as amended: in the history calculator the gain is the truncation of
the exact difference of untruncated totals minus net savings, so the identity
over *emitted* fields — `investment_gain_loss(t) = total(t) − total(t−1) −
net_savings(t)` with `net_savings` 0 when no cash-flow statement exists —
holds whenever asset balances and market rates are integral; the first
emitted row has gain exactly 0 unconditionally.  Over the combined series,
`calculate_bs_derived` satisfies the emitted identity exactly for every
consecutive pair and gives the first row gain 0. -/
theorem c2_gain_identity :
    (∀ (assets : List Asset) (markets : List Market) (accounts : List Account)
        (cashflows : List CashFlowStatement),
      IntBalances assets → IntRates markets →
      ∀ (i : ℕ) (bs₁ bs₂ : BalanceSheet),
        (BalanceSheetCalculator_calculate assets markets accounts cashflows)[i]? = some bs₁ →
        (BalanceSheetCalculator_calculate assets markets accounts cashflows)[i + 1]? = some bs₂ →
        bs₂.investment_gain_loss
          = bs₂.total_financial_assets - bs₁.total_financial_assets
            - nsOf (cf_map cashflows) bs₂.month) ∧
    (∀ (assets : List Asset) (markets : List Market) (accounts : List Account)
        (cashflows : List CashFlowStatement) (bs : BalanceSheet),
        (BalanceSheetCalculator_calculate assets markets accounts cashflows)[0]? = some bs →
        bs.investment_gain_loss = 0) ∧
    (∀ (df : List CombinedRow) (r : CombinedRow),
        (calculate_bs_derived df)[0]? = some r → r.investment_gain_loss = 0) ∧
    (∀ (df : List CombinedRow) (i : ℕ) (r₁ r₂ : CombinedRow),
        (calculate_bs_derived df)[i]? = some r₁ →
        (calculate_bs_derived df)[i + 1]? = some r₂ →
        r₂.investment_gain_loss
          = r₂.total_financial_assets - r₁.total_financial_assets - r₂.net_savings) := by
  refine ⟨?_, ?_, ?_, ?_⟩
  · intro assets markets accounts cashflows hA hM i bs₁ bs₂ h1 h2
    rw [BalanceSheetCalculator_calculate, List.getElem?_map] at h1 h2
    obtain ⟨q₁, hq1, rfl⟩ := Option.map_eq_some'.mp h1
    obtain ⟨q₂, hq2, rfl⟩ := Option.map_eq_some'.mp h2
    have hchain := bsLoopQ_chain (account_map accounts) (market_map markets)
      (cf_map cashflows) assets _ _ _ i q₁ q₂ hq1 hq2
    obtain ⟨-, -, -, ⟨n₁, ht1⟩, -⟩ :=
      bsLoopQ_int (account_map accounts) (cf_map cashflows) hA hM _ _ isIntQ_zero _
        q₁ (List.getElem?_mem hq1)
    obtain ⟨-, -, -, ⟨n₂, ht2⟩, ⟨g₂, hg2⟩⟩ :=
      bsLoopQ_int (account_map accounts) (cf_map cashflows) hA hM _ _ isIntQ_zero _
        q₂ (List.getElem?_mem hq2)
    simp only [truncRow]
    rw [ht1, ht2, hg2, pytrunc_intCast, pytrunc_intCast, pytrunc_intCast]
    rw [ht1, ht2, hg2] at hchain
    exact_mod_cast hchain
  · intro assets markets accounts cashflows bs h
    rw [BalanceSheetCalculator_calculate, List.getElem?_map] at h
    obtain ⟨q, hq, rfl⟩ := Option.map_eq_some'.mp h
    have h0 := bsLoopQ_first_gain (account_map accounts) (market_map markets)
      (cf_map cashflows) assets _ _ q hq
    simp only [truncRow]
    rw [h0, pytrunc_zero]
  · intro df r h
    cases df with
    | nil => simp [calculate_bs_derived] at h
    | cons a rest =>
      rw [calculate_bs_derived_getElem, List.getElem?_cons_zero] at h
      simp only [bsGains, List.getElem?_cons_zero, Option.bind_some, Option.map_some'] at h
      obtain rfl := Option.some_injective _ h
      rfl
  · intro df i r₁ r₂ h1 h2
    rw [calculate_bs_derived_getElem] at h1 h2
    cases hd1 : df[i]? with
    | none => rw [hd1] at h1; simp at h1
    | some row₁ =>
      rw [hd1] at h1
      cases hg1 : (bsGains df)[i]? with
      | none => rw [hg1] at h1; simp at h1
      | some g₁ =>
        rw [hg1] at h1
        simp only [Option.bind_some, Option.map_some'] at h1
        obtain rfl := Option.some_injective _ h1
        cases hd2 : df[i + 1]? with
        | none => rw [hd2] at h2; simp at h2
        | some row₂ =>
          rw [hd2, bsGains_chain df i row₁ row₂ hd1 hd2] at h2
          simp only [Option.bind_some, Option.map_some'] at h2
          obtain rfl := Option.some_injective _ h2
          show dfTotal row₂ - dfTotal row₁ - row₂.net_savings
            = dfTotal row₂ - dfTotal row₁ - row₂.net_savings
          rfl

/-- Witness for C2's amended theorem on a two-month integral input. -/
theorem c2_gain_identity_witness :
    (BalanceSheetCalculator_calculate
        [⟨"2024-01", "a", "cash", 5⟩, ⟨"2024-02", "a", "cash", 7⟩] []
        [⟨"a", "A", AccountType.bank, Currency.JPY, 0⟩] [])[0]?
      = some ⟨"2024-01", 5, 0, 0, 5, 0⟩ ∧
    (BalanceSheetCalculator_calculate
        [⟨"2024-01", "a", "cash", 5⟩, ⟨"2024-02", "a", "cash", 7⟩] []
        [⟨"a", "A", AccountType.bank, Currency.JPY, 0⟩] [])[1]?
      = some ⟨"2024-02", 7, 0, 0, 7, 2⟩ ∧
    (⟨"2024-02", 7, 0, 0, 7, 2⟩ : BalanceSheet).investment_gain_loss
      = (⟨"2024-02", 7, 0, 0, 7, 2⟩ : BalanceSheet).total_financial_assets
        - (⟨"2024-01", 5, 0, 0, 5, 0⟩ : BalanceSheet).total_financial_assets
        - nsOf (cf_map []) (⟨"2024-02", 7, 0, 0, 7, 2⟩ : BalanceSheet).month := by
  have hev : BalanceSheetCalculator_calculate
      [⟨"2024-01", "a", "cash", 5⟩, ⟨"2024-02", "a", "cash", 7⟩] []
      [⟨"a", "A", AccountType.bank, Currency.JPY, 0⟩] []
      = [⟨"2024-01", 5, 0, 0, 5, 0⟩, ⟨"2024-02", 7, 0, 0, 7, 2⟩] := by
    have h1 : ("2024-01" : String) ≤ "2024-02" := by simp; decide
    simp [BalanceSheetCalculator_calculate, bsLoopQ, sorted_months, assets_of_month,
      account_map, market_map, cf_map, bucketTotals, bucketStep, convRate,
      truncRow, pytrunc, nsOf, List.insertionSort, List.orderedInsert, List.dedup,
      List.filter, List.foldl, h1]
    norm_num
  have h0 : (BalanceSheetCalculator_calculate
      [⟨"2024-01", "a", "cash", 5⟩, ⟨"2024-02", "a", "cash", 7⟩] []
      [⟨"a", "A", AccountType.bank, Currency.JPY, 0⟩] [])[0]?
      = some ⟨"2024-01", 5, 0, 0, 5, 0⟩ := by rw [hev]; rfl
  have h1 : (BalanceSheetCalculator_calculate
      [⟨"2024-01", "a", "cash", 5⟩, ⟨"2024-02", "a", "cash", 7⟩] []
      [⟨"a", "A", AccountType.bank, Currency.JPY, 0⟩] [])[1]?
      = some ⟨"2024-02", 7, 0, 0, 7, 2⟩ := by rw [hev]; rfl
  refine ⟨h0, h1, ?_⟩
  exact c2_gain_identity.1 _ _ _ []
    (by intro a ha; simp at ha
        rcases ha with rfl | rfl
        · exact ⟨5, by norm_num⟩
        · exact ⟨7, by norm_num⟩)
    (fun mk hmk => by simp at hmk) 0 _ _ h0 h1

/-- Row-level characterization of the two ratio columns of
`calculate_metrics_vectorized`: row `i` keeps every carried column of the
input row and receives the TTM savings rate and the per-row
`(risk + pension) / total` ratio. -/
lemma calculate_metrics_vectorized_getElem (df : List CombinedRow) (i : ℕ)
    (row : CombinedRow) (h : df[i]? = some row) :
    (calculate_metrics_vectorized df)[i]?
      = some { row with
          savings_rate :=
            if ttmSum (df.map (·.after_tax_income)) i ≠ 0 then
              ttmSum (df.map (·.net_savings)) i / ttmSum (df.map (·.after_tax_income)) i
            else 0,
          risk_asset_ratio :=
            if row.total_financial_assets ≠ 0 then
              (row.risk_assets + row.pension_assets) / row.total_financial_assets
            else 0 } := by
  rw [calculate_metrics_vectorized, List.getElem?_map, List.getElem?_enum, h]
  rfl

/-- C3 counterexample: on a row with `risk = pension = 1`, `total = 2`, the
Unified Metrics Engine emits `risk_asset_ratio = (1 + 1) / 2 = 1`, not the
history formula `risk / total = 1 / 2` the claim states. -/
theorem c3_counterexample :
    ∃ r ∈ calculate_metrics_vectorized [⟨"2025-01", 0, 0, 0, 0, 1, 1, 2, 0, 0, 0⟩],
      r.risk_asset_ratio
        ≠ (if r.total_financial_assets ≠ 0 then
            r.risk_assets / r.total_financial_assets else 0) := by
  have hev := calculate_metrics_vectorized_getElem
    [⟨"2025-01", 0, 0, 0, 0, 1, 1, 2, 0, 0, 0⟩] 0
    ⟨"2025-01", 0, 0, 0, 0, 1, 1, 2, 0, 0, 0⟩ rfl
  refine ⟨{ (⟨"2025-01", 0, 0, 0, 0, 1, 1, 2, 0, 0, 0⟩ : CombinedRow) with
      savings_rate :=
        if ttmSum ([⟨"2025-01", 0, 0, 0, 0, 1, 1, 2, 0, 0, 0⟩].map
            (CombinedRow.after_tax_income)) 0 ≠ 0 then
          ttmSum ([⟨"2025-01", 0, 0, 0, 0, 1, 1, 2, 0, 0, 0⟩].map (CombinedRow.net_savings)) 0
            / ttmSum ([⟨"2025-01", 0, 0, 0, 0, 1, 1, 2, 0, 0, 0⟩].map
                (CombinedRow.after_tax_income)) 0
        else 0,
      risk_asset_ratio :=
        if ((2 : ℚ)) ≠ 0 then ((1 : ℚ) + 1) / 2 else 0 }, ?_, ?_⟩
  · exact List.getElem?_mem hev
  · norm_num

/-- C3 as amended: for every row of the combined series the Unified Metrics
Engine computes `risk_asset_ratio = (risk_assets + pension_assets) /
total_financial_assets` (0 when the total is 0), which *differs* from the
history Metrics Calculator's per-month formula `risk_assets /
total_financial_assets` (0 when the total is 0) by including the pension
bucket in the numerator. -/
theorem c3_risk_ratio (df : List CombinedRow) (i : ℕ) (row out : CombinedRow)
    (hrow : df[i]? = some row)
    (hout : (calculate_metrics_vectorized df)[i]? = some out) :
    out.risk_asset_ratio
      = (if row.total_financial_assets ≠ 0 then
          (row.risk_assets + row.pension_assets) / row.total_financial_assets else 0) ∧
    ∀ (m : String) (cf : CashFlowStatement) (bs : BalanceSheet)
      (market : Option Market) (prevBs : Option BalanceSheet) (prevMkt : Option Market),
      (computeFM m cf bs market prevBs prevMkt).risk_asset_ratio
        = (if bs.total_financial_assets ≠ 0 then
            (bs.risk_assets : ℚ) / (bs.total_financial_assets : ℚ) else 0) := by
  constructor
  · rw [calculate_metrics_vectorized_getElem df i row hrow] at hout
    obtain rfl := Option.some_injective _ hout
    rfl
  · intro m cf bs market prevBs prevMkt
    rfl

/-- Witness for C3's amended theorem at a concrete one-row series. -/
theorem c3_risk_ratio_witness :
    (calculate_metrics_vectorized [⟨"2025-01", 0, 0, 0, 0, 1, 1, 2, 0, 0, 0⟩])[0]?
        = some { (⟨"2025-01", 0, 0, 0, 0, 1, 1, 2, 0, 0, 0⟩ : CombinedRow) with
            savings_rate := 0, risk_asset_ratio := 1 } ∧
    ((1 : ℚ)
      = (if ((⟨"2025-01", 0, 0, 0, 0, 1, 1, 2, 0, 0, 0⟩ : CombinedRow).total_financial_assets
            ≠ 0) then
          ((⟨"2025-01", 0, 0, 0, 0, 1, 1, 2, 0, 0, 0⟩ : CombinedRow).risk_assets
              + (⟨"2025-01", 0, 0, 0, 0, 1, 1, 2, 0, 0, 0⟩ : CombinedRow).pension_assets)
            / (⟨"2025-01", 0, 0, 0, 0, 1, 1, 2, 0, 0, 0⟩ : CombinedRow).total_financial_assets
         else 0)) := by
  have hev : (calculate_metrics_vectorized [⟨"2025-01", 0, 0, 0, 0, 1, 1, 2, 0, 0, 0⟩])[0]?
      = some { (⟨"2025-01", 0, 0, 0, 0, 1, 1, 2, 0, 0, 0⟩ : CombinedRow) with
          savings_rate := 0, risk_asset_ratio := 1 } := by
    rw [calculate_metrics_vectorized_getElem [⟨"2025-01", 0, 0, 0, 0, 1, 1, 2, 0, 0, 0⟩] 0
      ⟨"2025-01", 0, 0, 0, 0, 1, 1, 2, 0, 0, 0⟩ rfl]
    norm_num [ttmSum]
  refine ⟨hev, ?_⟩
  have h := (c3_risk_ratio [⟨"2025-01", 0, 0, 0, 0, 1, 1, 2, 0, 0, 0⟩] 0
    ⟨"2025-01", 0, 0, 0, 0, 1, 1, 2, 0, 0, 0⟩
    { (⟨"2025-01", 0, 0, 0, 0, 1, 1, 2, 0, 0, 0⟩ : CombinedRow) with
        savings_rate := 0, risk_asset_ratio := 1 } rfl hev).1
  exact h

/-- C4 counterexample: with incomes `1, 1` and net savings `1, 0`, the second
row of the combined series gets `savings_rate = (1 + 0) / (1 + 1) = 1/2` from
the trailing-12-month rolling sums — not the per-month `0 / 1 = 0` the claim
states. -/
theorem c4_counterexample :
    ∃ r ∈ calculate_metrics_vectorized
        [⟨"2025-01", 1, 0, 1, 0, 0, 0, 0, 0, 0, 0⟩,
         ⟨"2025-02", 1, 1, 0, 0, 0, 0, 0, 0, 0, 0⟩],
      r.savings_rate
        ≠ (if r.after_tax_income ≠ 0 then r.net_savings / r.after_tax_income else 0) := by
  have hev : (calculate_metrics_vectorized
      [⟨"2025-01", 1, 0, 1, 0, 0, 0, 0, 0, 0, 0⟩,
       ⟨"2025-02", 1, 1, 0, 0, 0, 0, 0, 0, 0, 0⟩])[1]?
      = some { (⟨"2025-02", 1, 1, 0, 0, 0, 0, 0, 0, 0, 0⟩ : CombinedRow) with
          savings_rate := 1/2, risk_asset_ratio := 0 } := by
    rw [calculate_metrics_vectorized_getElem
      [⟨"2025-01", 1, 0, 1, 0, 0, 0, 0, 0, 0, 0⟩,
       ⟨"2025-02", 1, 1, 0, 0, 0, 0, 0, 0, 0, 0⟩] 1
      ⟨"2025-02", 1, 1, 0, 0, 0, 0, 0, 0, 0, 0⟩ rfl]
    norm_num [ttmSum]
  refine ⟨{ (⟨"2025-02", 1, 1, 0, 0, 0, 0, 0, 0, 0, 0⟩ : CombinedRow) with
      savings_rate := 1/2, risk_asset_ratio := 0 }, List.getElem?_mem hev, ?_⟩
  norm_num

/-- C4 as amended: for every row of the combined series the Unified Metrics
Engine computes `savings_rate` from trailing-12-month rolling sums —
`TTM net_savings / TTM after_tax_income` over the window of up to 12 rows
ending at the row, with 0 when the TTM income sum is 0 — whereas the history
Metrics Calculator computes the per-month `net_savings / after_tax_income`
(0 when the month's income is 0). -/
theorem c4_savings_rate (df : List CombinedRow) (i : ℕ) (row out : CombinedRow)
    (hrow : df[i]? = some row)
    (hout : (calculate_metrics_vectorized df)[i]? = some out) :
    out.savings_rate
      = (if ttmSum (df.map (·.after_tax_income)) i ≠ 0 then
          ttmSum (df.map (·.net_savings)) i / ttmSum (df.map (·.after_tax_income)) i
         else 0) ∧
    ∀ (m : String) (cf : CashFlowStatement) (bs : BalanceSheet)
      (market : Option Market) (prevBs : Option BalanceSheet) (prevMkt : Option Market),
      (computeFM m cf bs market prevBs prevMkt).savings_rate
        = (if cf.after_tax_income ≠ 0 then
            (cf.net_savings : ℚ) / (cf.after_tax_income : ℚ) else 0) := by
  constructor
  · rw [calculate_metrics_vectorized_getElem df i row hrow] at hout
    obtain rfl := Option.some_injective _ hout
    rfl
  · intro m cf bs market prevBs prevMkt
    rfl

/-- Witness for C4's amended theorem at a concrete two-row series. -/
theorem c4_savings_rate_witness :
    (calculate_metrics_vectorized
        [⟨"2025-01", 1, 0, 1, 0, 0, 0, 0, 0, 0, 0⟩,
         ⟨"2025-02", 1, 1, 0, 0, 0, 0, 0, 0, 0, 0⟩])[1]?
      = some { (⟨"2025-02", 1, 1, 0, 0, 0, 0, 0, 0, 0, 0⟩ : CombinedRow) with
          savings_rate := 1/2, risk_asset_ratio := 0 } ∧
    ((1/2 : ℚ)
      = (if ttmSum (([⟨"2025-01", 1, 0, 1, 0, 0, 0, 0, 0, 0, 0⟩,
            ⟨"2025-02", 1, 1, 0, 0, 0, 0, 0, 0, 0, 0⟩] : List CombinedRow).map
              (CombinedRow.after_tax_income)) 1 ≠ 0 then
          ttmSum (([⟨"2025-01", 1, 0, 1, 0, 0, 0, 0, 0, 0, 0⟩,
            ⟨"2025-02", 1, 1, 0, 0, 0, 0, 0, 0, 0, 0⟩] : List CombinedRow).map
              (CombinedRow.net_savings)) 1
            / ttmSum (([⟨"2025-01", 1, 0, 1, 0, 0, 0, 0, 0, 0, 0⟩,
                ⟨"2025-02", 1, 1, 0, 0, 0, 0, 0, 0, 0, 0⟩] : List CombinedRow).map
                  (CombinedRow.after_tax_income)) 1
         else 0)) := by
  have hev : (calculate_metrics_vectorized
      [⟨"2025-01", 1, 0, 1, 0, 0, 0, 0, 0, 0, 0⟩,
       ⟨"2025-02", 1, 1, 0, 0, 0, 0, 0, 0, 0, 0⟩])[1]?
      = some { (⟨"2025-02", 1, 1, 0, 0, 0, 0, 0, 0, 0, 0⟩ : CombinedRow) with
          savings_rate := 1/2, risk_asset_ratio := 0 } := by
    rw [calculate_metrics_vectorized_getElem
      [⟨"2025-01", 1, 0, 1, 0, 0, 0, 0, 0, 0, 0⟩,
       ⟨"2025-02", 1, 1, 0, 0, 0, 0, 0, 0, 0, 0⟩] 1
      ⟨"2025-02", 1, 1, 0, 0, 0, 0, 0, 0, 0, 0⟩ rfl]
    norm_num [ttmSum]
  refine ⟨hev, ?_⟩
  exact (c4_savings_rate
    [⟨"2025-01", 1, 0, 1, 0, 0, 0, 0, 0, 0, 0⟩,
     ⟨"2025-02", 1, 1, 0, 0, 0, 0, 0, 0, 0, 0⟩] 1
    ⟨"2025-02", 1, 1, 0, 0, 0, 0, 0, 0, 0, 0⟩
    { (⟨"2025-02", 1, 1, 0, 0, 0, 0, 0, 0, 0, 0⟩ : CombinedRow) with
        savings_rate := 1/2, risk_asset_ratio := 0 } rfl hev).1

/-- An asset row whose account is unknown contributes nothing to the bucket
accumulation, wherever it sits in the month's row list. -/
lemma bucketTotals_insert_unknown (amap : String → Option Account) (mkt : Option Market)
    (l₁ l₂ : List Asset) (a : Asset) (hunk : amap a.account_id = none) :
    bucketTotals amap mkt (l₁ ++ a :: l₂) = bucketTotals amap mkt (l₁ ++ l₂) := by
  rw [bucketTotals, bucketTotals, List.foldl_append, List.foldl_append, List.foldl_cons]
  have hstep : ∀ st, bucketStep amap mkt st a = st := by
    intro st; rw [bucketStep, hunk]
  rw [hstep]

/-- Inserting a row of an already-present month does not change the sorted
month list the balance-sheet loop walks. -/
lemma sorted_months_insert (pre post : List Asset) (a : Asset) (markets : List Market)
    (hmon : a.month ∈ (pre ++ post).map (·.month)) :
    sorted_months (pre ++ a :: post) markets = sorted_months (pre ++ post) markets := by
  have hperm : List.Perm
      ((pre ++ a :: post).map (·.month) ++ markets.map (·.month))
      (a.month :: ((pre ++ post).map (·.month) ++ markets.map (·.month))) := by
    have h1 : (pre ++ a :: post).map (fun x => x.month) ++ markets.map (fun x => x.month)
        = pre.map (fun x => x.month)
          ++ a.month :: (post.map (fun x => x.month) ++ markets.map (fun x => x.month)) := by
      simp
    have h2 : (pre ++ post).map (fun x => x.month) ++ markets.map (fun x => x.month)
        = pre.map (fun x => x.month)
          ++ (post.map (fun x => x.month) ++ markets.map (fun x => x.month)) := by
      simp
    rw [h1, h2]
    exact List.perm_middle
  have hmem : a.month ∈ (pre ++ post).map (·.month) ++ markets.map (·.month) :=
    List.mem_append_left _ hmon
  have hded : List.Perm
      (((pre ++ a :: post).map (·.month) ++ markets.map (·.month)).dedup)
      (((pre ++ post).map (·.month) ++ markets.map (·.month)).dedup) := by
    have := hperm.dedup
    rwa [List.dedup_cons_of_mem hmem] at this
  rw [sorted_months, sorted_months]
  refine List.eq_of_perm_of_sorted ?_ (List.sorted_insertionSort _ _)
    (List.sorted_insertionSort _ _)
  exact ((List.perm_insertionSort _ _).trans hded).trans
    (List.perm_insertionSort _ _).symm

/-- The balance-sheet loop only looks at the asset lists through their
emptiness and their bucket totals; agreeing inputs give equal outputs. -/
lemma bsLoopQ_congr (amap : String → Option Account) (mmap : String → Option Market)
    (cfmap : String → Option CashFlowStatement) (assets₁ assets₂ : List Asset) :
    ∀ (months : List String) (prevT : ℚ) (isFirst : Bool),
      (∀ m ∈ months,
        (assets_of_month assets₁ m).isEmpty = (assets_of_month assets₂ m).isEmpty ∧
        bucketTotals amap (mmap m) (assets_of_month assets₁ m)
          = bucketTotals amap (mmap m) (assets_of_month assets₂ m)) →
      bsLoopQ amap mmap cfmap assets₁ months prevT isFirst
        = bsLoopQ amap mmap cfmap assets₂ months prevT isFirst := by
  intro months
  induction months with
  | nil => intro prevT isFirst _; simp [bsLoopQ]
  | cons m rest ih =>
    intro prevT isFirst h
    obtain ⟨hemp, hbuck⟩ := h m (List.mem_cons_self m rest)
    have hrest := fun x hx => h x (List.mem_cons_of_mem m hx)
    by_cases he : (assets_of_month assets₁ m).isEmpty = true
    · rw [bsLoopQ_cons_skip amap mmap cfmap assets₁ m rest prevT isFirst he,
        bsLoopQ_cons_skip amap mmap cfmap assets₂ m rest prevT isFirst (hemp ▸ he)]
      exact ih _ _ hrest
    · have he₁ : (assets_of_month assets₁ m).isEmpty = false := by simpa using he
      have he₂ : (assets_of_month assets₂ m).isEmpty = false := hemp ▸ he₁
      rw [bsLoopQ_cons_emit amap mmap cfmap assets₁ m rest prevT isFirst he₁,
        bsLoopQ_cons_emit amap mmap cfmap assets₂ m rest prevT isFirst he₂, hbuck]
      rw [ih _ _ hrest]

/-- C9 counterexample: an unknown-account row that is the *only* asset row of
its month still makes the calculator emit an all-zero balance sheet for that
month (and reset the running total), so the output is not the same as with
the row absent — here 2 rows against 1. -/
theorem c9_counterexample :
    BalanceSheetCalculator_calculate
        [⟨"2024-01", "a", "cash", 5⟩, ⟨"2024-02", "zzz", "cash", 7⟩] []
        [⟨"a", "A", AccountType.bank, Currency.JPY, 0⟩] []
      ≠ BalanceSheetCalculator_calculate [⟨"2024-01", "a", "cash", 5⟩] []
          [⟨"a", "A", AccountType.bank, Currency.JPY, 0⟩] [] := by
  have hev₁ : BalanceSheetCalculator_calculate
      [⟨"2024-01", "a", "cash", 5⟩, ⟨"2024-02", "zzz", "cash", 7⟩] []
      [⟨"a", "A", AccountType.bank, Currency.JPY, 0⟩] []
      = [⟨"2024-01", 5, 0, 0, 5, 0⟩, ⟨"2024-02", 0, 0, 0, 0, -5⟩] := by
    have h1 : ("2024-01" : String) ≤ "2024-02" := by simp; decide
    simp [BalanceSheetCalculator_calculate, bsLoopQ, sorted_months, assets_of_month,
      account_map, market_map, cf_map, bucketTotals, bucketStep, convRate,
      truncRow, pytrunc, nsOf, List.insertionSort, List.orderedInsert, List.dedup,
      List.filter, List.foldl, h1]
  have hev₂ : BalanceSheetCalculator_calculate [⟨"2024-01", "a", "cash", 5⟩] []
      [⟨"a", "A", AccountType.bank, Currency.JPY, 0⟩] []
      = [⟨"2024-01", 5, 0, 0, 5, 0⟩] := by
    simp [BalanceSheetCalculator_calculate, bsLoopQ, sorted_months, assets_of_month,
      account_map, market_map, cf_map, bucketTotals, bucketStep, convRate,
      truncRow, pytrunc, nsOf, List.insertionSort, List.orderedInsert, List.dedup,
      List.filter, List.foldl]
  rw [hev₁, hev₂]
  simp

/-- C9 as amended: the calculator raises no error on an unknown-account row
(it is total), the row contributes to no bucket total, and whenever the row's
month carries at least one other asset row the output is exactly the output
with the row absent.  (An unknown-account row that is the sole row of its
month still produces an all-zero balance-sheet row, as the counterexample
shows.) -/
theorem c9_unknown_account (pre post : List Asset) (a : Asset) (markets : List Market)
    (accounts : List Account) (cashflows : List CashFlowStatement)
    (hunk : account_map accounts a.account_id = none)
    (hmon : a.month ∈ (pre ++ post).map (·.month)) :
    BalanceSheetCalculator_calculate (pre ++ a :: post) markets accounts cashflows
      = BalanceSheetCalculator_calculate (pre ++ post) markets accounts cashflows := by
  rw [BalanceSheetCalculator_calculate, BalanceSheetCalculator_calculate,
    sorted_months_insert pre post a markets hmon]
  congr 1
  apply bsLoopQ_congr
  intro m _
  by_cases hm : (a.month == m) = true
  · have hsplit : assets_of_month (pre ++ a :: post) m
        = assets_of_month pre m ++ a :: assets_of_month post m := by
      simp [assets_of_month, List.filter_append, hm]
    have hsplit₂ : assets_of_month (pre ++ post) m
        = assets_of_month pre m ++ assets_of_month post m := by
      simp [assets_of_month, List.filter_append]
    constructor
    · obtain ⟨b, hb, hbm⟩ := List.mem_map.mp hmon
      have ham : a.month = m := by simpa using hm
      have hbmem : b ∈ assets_of_month pre m ++ assets_of_month post m := by
        rw [← hsplit₂]
        refine List.mem_filter.mpr ⟨hb, ?_⟩
        simp [hbm, ham]
      rw [hsplit, hsplit₂]
      have hL : (assets_of_month pre m ++ a :: assets_of_month post m).isEmpty = false := by
        rw [Bool.eq_false_iff]
        intro hcon
        rw [List.isEmpty_iff] at hcon
        simp at hcon
      have hR : (assets_of_month pre m ++ assets_of_month post m).isEmpty = false := by
        rw [Bool.eq_false_iff]
        intro hcon
        rw [List.isEmpty_iff] at hcon
        rw [hcon] at hbmem
        simp at hbmem
      rw [hL, hR]
    · rw [hsplit, hsplit₂]
      exact bucketTotals_insert_unknown _ _ _ _ a hunk
  · have hfa : assets_of_month (pre ++ a :: post) m = assets_of_month (pre ++ post) m := by
      simp only [assets_of_month, List.filter_append, List.filter_cons]
      rw [if_neg (by simpa using hm)]
    rw [hfa]
    exact ⟨rfl, rfl⟩

/-- Witness for C9's amended theorem: an unknown-account row sharing its month
with a known row changes nothing. -/
theorem c9_unknown_account_witness :
    BalanceSheetCalculator_calculate
        ([⟨"2024-01", "a", "cash", 5⟩] ++ (⟨"2024-01", "zzz", "cash", 7⟩ : Asset) :: []) []
        [⟨"a", "A", AccountType.bank, Currency.JPY, 0⟩] []
      = BalanceSheetCalculator_calculate ([⟨"2024-01", "a", "cash", 5⟩] ++ []) []
          [⟨"a", "A", AccountType.bank, Currency.JPY, 0⟩] [] :=
  c9_unknown_account [⟨"2024-01", "a", "cash", 5⟩] [] ⟨"2024-01", "zzz", "cash", 7⟩ []
    [⟨"a", "A", AccountType.bank, Currency.JPY, 0⟩] []
    (by simp [account_map]) (by simp)

end WealthAudit
